import Mathlib

/-
Shallow embedding of the valuation core of the Volur repository.

Python floats are modelled as rationals (ℚ); `Optional[float]` fields are
modelled as `Option ℚ`.  Python truthiness on an optional float
(`if not x: ...`) is `False` exactly when the value is `None` or `0.0`;
this is captured by `pyTruthy` below.  `x or y` on an optional float
(source line `params.terminal_growth or params.long_term_growth`) is
captured by `pyOr`.
-/

/-- Truthiness of an optional float: `none` and `0.0` are falsy. -/
def pyTruthy (x : Option ℚ) : Bool :=
  match x with
  | none => false
  | some v => v != 0

/-- Python `x or y` for `x : Optional[float]`, `y : float`: yields `y`
when `x` is `None` or `0.0`, else the value of `x`. -/
def pyOr (x : Option ℚ) (y : ℚ) : ℚ :=
  match x with
  | none => y
  | some v => if v != 0 then v else y

/-- Python `round(x, 2)`: rounding to two decimal places.  (The tie-breaking
rule differs from CPython's banker's rounding, but no property proved here
depends on tie behaviour.) -/
def pyRound2 (x : ℚ) : ℚ :=
  ((round (x * 100) : ℤ) : ℚ) / 100

/-- `Quote` dataclass from `volur/plugins/__init__.py`. -/
structure Quote where
  ticker : String
  price : Option ℚ
  currency : Option String := none
  shares_outstanding : Option ℚ := none

/-- `Fundamentals` dataclass from `volur/plugins/__init__.py`. -/
structure Fundamentals where
  ticker : String
  trailing_pe : Option ℚ
  price_to_book : Option ℚ
  roe : Option ℚ
  roa : Option ℚ
  debt_to_equity : Option ℚ
  free_cash_flow : Option ℚ
  revenue : Option ℚ := none
  operating_margin : Option ℚ := none
  sector : Option String := none
  name : Option String := none

/-- `DCFParams` dataclass from `volur/models/__init__.py`. -/
structure DCFParams where
  discount_rate : ℚ := 10 / 100
  long_term_growth : ℚ := 2 / 100
  years : ℕ := 10
  terminal_growth : Option ℚ := none

/-- `_calculate_present_value_cash_flows` from `volur/valuation/dcf.py`:
for `year` in `1..years`, project `initial_fcf * (1+growth_rate)^year` and
discount by `(1+discount_rate)^year`; sum. -/
def _calculate_present_value_cash_flows
    (initial_fcf growth_rate discount_rate : ℚ) (years : ℕ) : ℚ :=
  ∑ year ∈ Finset.range years,
    initial_fcf * (1 + growth_rate) ^ (year + 1) / (1 + discount_rate) ^ (year + 1)

/-- `_calculate_terminal_value` from `volur/valuation/dcf.py` (Gordon
Growth Model), already discounted back to present value. -/
def _calculate_terminal_value
    (initial_fcf growth_rate terminal_growth discount_rate : ℚ) (years : ℕ) : ℚ :=
  let terminal_fcf := initial_fcf * (1 + growth_rate) ^ years
  let terminal_value := terminal_fcf * (1 + terminal_growth) / (discount_rate - terminal_growth)
  terminal_value / (1 + discount_rate) ^ years

/-- Source line 29 of `volur/valuation/dcf.py`:
`terminal_growth = params.terminal_growth or params.long_term_growth`. -/
def terminal_growth_of (params : DCFParams) : ℚ :=
  pyOr params.terminal_growth params.long_term_growth

/-- `calculate_dcf_value` from `volur/valuation/dcf.py`. -/
def calculate_dcf_value (quote : Quote) (fundamentals : Fundamentals)
    (params : DCFParams) : Option ℚ × Option ℚ :=
  if ¬ pyTruthy fundamentals.free_cash_flow then (none, none)
  else
    let fcf := fundamentals.free_cash_flow.getD 0
    let terminal_growth := terminal_growth_of params
    if params.discount_rate ≤ terminal_growth then (none, none)
    else
      let pv_cash_flows := _calculate_present_value_cash_flows
        fcf params.long_term_growth params.discount_rate params.years
      let terminal_value := _calculate_terminal_value
        fcf params.long_term_growth terminal_growth params.discount_rate params.years
      let intrinsic_value_total := pv_cash_flows + terminal_value
      let intrinsic_value_per_share : Option ℚ :=
        match quote.shares_outstanding with
        | none => none
        | some s => if s ≠ 0 ∧ 0 < s then some (intrinsic_value_total / s) else none
      (intrinsic_value_per_share, some intrinsic_value_total)

/-- `calculate_margin_of_safety` from `volur/valuation/dcf.py`. -/
def calculate_margin_of_safety
    (current_price intrinsic_value_per_share : Option ℚ) : Option ℚ :=
  if ¬ pyTruthy current_price ∨ ¬ pyTruthy intrinsic_value_per_share
      ∨ intrinsic_value_per_share.getD 0 ≤ 0 then none
  else
    some ((intrinsic_value_per_share.getD 0 - current_price.getD 0)
      / intrinsic_value_per_share.getD 0)

/-- `calculate_fcf_yield` from `volur/valuation/ratios.py`. -/
def calculate_fcf_yield (quote : Quote) (fundamentals : Fundamentals) : Option ℚ :=
  if ¬ pyTruthy quote.price ∨ ¬ pyTruthy quote.shares_outstanding
      ∨ ¬ pyTruthy fundamentals.free_cash_flow then none
  else
    let market_cap := quote.price.getD 0 * quote.shares_outstanding.getD 0
    if market_cap ≤ 0 then none
    else some (fundamentals.free_cash_flow.getD 0 / market_cap)

/-- Scoring weights of the `Settings` class in `volur/config.py`. -/
structure Settings where
  pe_weight : ℚ := 3 / 10
  pb_weight : ℚ := 2 / 10
  fcf_yield_weight : ℚ := 3 / 10
  roe_weight : ℚ := 2 / 10

/-- The global `settings` instance of `volur/config.py` with its default
field values (no environment overrides). -/
def settings : Settings := {}

/-- `_calculate_fcf_yield_for_scoring` from `volur/valuation/scoring.py`
(duplicated from `ratios.calculate_fcf_yield` in the source). -/
def _calculate_fcf_yield_for_scoring (quote : Quote) (fundamentals : Fundamentals) : Option ℚ :=
  if ¬ pyTruthy quote.price ∨ ¬ pyTruthy quote.shares_outstanding
      ∨ ¬ pyTruthy fundamentals.free_cash_flow then none
  else
    let market_cap := quote.price.getD 0 * quote.shares_outstanding.getD 0
    if market_cap ≤ 0 then none
    else some (fundamentals.free_cash_flow.getD 0 / market_cap)

/-- The `scores` list built by the four conditional blocks of
`calculate_value_score` in `volur/valuation/scoring.py`, in source order:
each available signal appends its clamped `min(100, max(0, ...))`
score. -/
def scores_of (quote : Quote) (fundamentals : Fundamentals) : List ℚ :=
  (if pyTruthy fundamentals.trailing_pe ∧ 0 < fundamentals.trailing_pe.getD 0 then
    [min 100 (max 0 (100 - fundamentals.trailing_pe.getD 0 * 2))]
   else [])
  ++ (if pyTruthy fundamentals.price_to_book ∧ 0 < fundamentals.price_to_book.getD 0 then
    [min 100 (max 0 (100 - fundamentals.price_to_book.getD 0 * 20))]
   else [])
  ++ (match _calculate_fcf_yield_for_scoring quote fundamentals with
      | some y => [min 100 (max 0 (y * 1000))]
      | none => [])
  ++ (match fundamentals.roe with
      | some r => [min 100 (max 0 (r * 100))]
      | none => [])

/-- The parallel `weights` list built by the same four conditional blocks
of `calculate_value_score`: each available signal appends its configured
weight. -/
def weights_of (quote : Quote) (fundamentals : Fundamentals) : List ℚ :=
  (if pyTruthy fundamentals.trailing_pe ∧ 0 < fundamentals.trailing_pe.getD 0 then
    [settings.pe_weight]
   else [])
  ++ (if pyTruthy fundamentals.price_to_book ∧ 0 < fundamentals.price_to_book.getD 0 then
    [settings.pb_weight]
   else [])
  ++ (match _calculate_fcf_yield_for_scoring quote fundamentals with
      | some _ => [settings.fcf_yield_weight]
      | none => [])
  ++ (match fundamentals.roe with
      | some _ => [settings.roe_weight]
      | none => [])

/-- `calculate_value_score` from `volur/valuation/scoring.py`: aggregate
the available signal scores with their weights normalized over the
available subset, and round to two decimal places. -/
def calculate_value_score (quote : Quote) (fundamentals : Fundamentals) : Option ℚ :=
  let scores := scores_of quote fundamentals
  let weights := weights_of quote fundamentals
  if scores = [] ∨ weights = [] then none
  else
    let total_weight := weights.sum
    if total_weight = 0 then none
    else
      let normalized_weights := weights.map (fun w => w / total_weight)
      let weighted_score := ((scores.zip normalized_weights).map (fun p => p.1 * p.2)).sum
      some (pyRound2 weighted_score)

/-- `get_value_score_interpretation` from `volur/valuation/scoring.py`. -/
def get_value_score_interpretation (score : ℚ) : String :=
  if 80 ≤ score then "Excellent Value"
  else if 60 ≤ score then "Good Value"
  else if 40 ≤ score then "Fair Value"
  else if 20 ≤ score then "Poor Value"
  else "Very Poor Value"

/-- A data source per the `DataSource` protocol of
`volur/plugins/__init__.py`: a name and the two fetch operations. -/
structure DataSource where
  name : String
  get_quote : String → Quote
  get_fundamentals : String → Fundamentals

/-- The `_REGISTRY` dict, modelled as an insertion-ordered association
list (Python dict semantics). -/
abbrev Registry : Type := List (String × DataSource)

/-- Python dict assignment `d[k] = v`: update the value in place when the
key is present (keeping its position), otherwise append the binding. -/
def dictInsert (r : Registry) (k : String) (v : DataSource) : Registry :=
  if (List.any r fun p => p.1 == k) then
    List.map (fun p => if p.1 == k then (k, v) else p) r
  else r ++ [(k, v)]

/-- `register_source` from `volur/plugins/__init__.py`:
`_REGISTRY[source.name] = source`. -/
def register_source (r : Registry) (source : DataSource) : Registry :=
  dictInsert r source.name source

/-- `get_source` from `volur/plugins/__init__.py`: raises
`KeyError("Unknown data source: ...")` for an unregistered name, else
returns the registered implementation. -/
def get_source (r : Registry) (name : String) : Except String DataSource :=
  match List.find? (fun p => p.1 == name) r with
  | none => Except.error ("Unknown data source: " ++ name)
  | some p => Except.ok p.2

/-- `list_sources` from `volur/plugins/__init__.py`:
`sorted(_REGISTRY.keys())`. -/
def list_sources (r : Registry) : List String :=
  List.insertionSort (fun a b => a ≤ b) (List.map Prod.fst r)

/-- The effective terminal growth rate as the specification words it:
`params.terminal_growth` if present (including when it is `0.0`), else
`params.long_term_growth`.  This is the spec-side resolution rule, kept
separate so it can be compared against `terminal_growth_of`, the rule the
source actually implements via Python `or`. -/
def terminal_growth_as_specified (params : DCFParams) : ℚ :=
  match params.terminal_growth with
  | some t => t
  | none => params.long_term_growth

/-- Demo source used only to witness the registry claim. -/
def srcDemoA : DataSource :=
  ⟨"alpha", fun t => Quote.mk t none none none,
    fun t => Fundamentals.mk t none none none none none none none none none none⟩

/-- Second demo source with the same name as `srcDemoA`. -/
def srcDemoB : DataSource :=
  ⟨"alpha", fun t => Quote.mk t (some 1) none none,
    fun t => Fundamentals.mk t none none none none none none none none none none⟩

/-
Claim theorems.
-/

/-- C1 (corrected): if `fundamentals.free_cash_flow` is unknown, or the
effective terminal growth rate as the code resolves it (`terminal_growth`
when present and nonzero, else `long_term_growth` — Python `or` treats a
present `0.0` as absent) is at least `params.discount_rate`, then
`calculate_dcf_value` returns `(none, none)` regardless of all other
inputs. -/
theorem C1_dcf_gating (q : Quote) (f : Fundamentals) (p : DCFParams)
    (h : f.free_cash_flow = none ∨ p.discount_rate ≤ terminal_growth_of p) :
    calculate_dcf_value q f p = (none, none) := by
  rcases h with h | h
  · simp [calculate_dcf_value, pyTruthy, h]
  · by_cases hf : pyTruthy f.free_cash_flow
    · simp [calculate_dcf_value, hf, h]
    · simp [calculate_dcf_value, hf]

/-- Witness for C1 at a concrete input: `free_cash_flow = 50` is known,
but the effective terminal growth (no `terminal_growth`, so
`long_term_growth = 1/10`) is at least the discount rate `1/100`. -/
theorem C1_dcf_gating_witness :
    calculate_dcf_value (Quote.mk "W" none none none)
      (Fundamentals.mk "W" none none none none none (some 50) none none none none)
      (DCFParams.mk (1/100) (1/10) 5 none) = (none, none) :=
  C1_dcf_gating _ _ _ (Or.inr (by norm_num [terminal_growth_of, pyOr]))

/-- Counterexample to C1 as stated: with `terminal_growth` present and
equal to `0.0`, `long_term_growth = -1/2` and `discount_rate = 0`, the
spec-side effective terminal growth (`0`) is at least the discount rate,
so per the claim the result should be `(none, none)`; the code instead
falls back to `long_term_growth = -1/2`, passes its validity check, and
returns a known total of `100`. -/
theorem C1_counterexample :
    (DCFParams.mk 0 (-1/2) 1 (some 0)).discount_rate
        ≤ terminal_growth_as_specified (DCFParams.mk 0 (-1/2) 1 (some 0))
    ∧ (Fundamentals.mk "T" none none none none none (some 100) none none none
        none).free_cash_flow = some 100
    ∧ calculate_dcf_value (Quote.mk "T" none none none)
        (Fundamentals.mk "T" none none none none none (some 100) none none none none)
        (DCFParams.mk 0 (-1/2) 1 (some 0)) = (none, some 100) := by
  refine ⟨by norm_num [terminal_growth_as_specified], rfl, ?_⟩
  norm_num [calculate_dcf_value, terminal_growth_of, pyOr, pyTruthy,
    _calculate_present_value_cash_flows, _calculate_terminal_value, Finset.sum_range_succ]

/-- C2 (corrected): the code resolves the effective terminal growth rate
as `params.terminal_growth` only when that field is present and nonzero;
when the field is absent or equal to `0.0` it falls back to
`params.long_term_growth` (Python `or` on the optional float). -/
theorem C2_terminal_growth_resolution (p : DCFParams) :
    (∀ t : ℚ, p.terminal_growth = some t → t ≠ 0 → terminal_growth_of p = t)
    ∧ ((p.terminal_growth = none ∨ p.terminal_growth = some 0) →
        terminal_growth_of p = p.long_term_growth) := by
  constructor
  · intro t ht hne
    simp [terminal_growth_of, pyOr, ht, hne]
  · rintro (h | h) <;> simp [terminal_growth_of, pyOr, h]

/-- Witness for C2 at concrete parameter values: a present nonzero
`terminal_growth = 3/100` is used as is, while a present `terminal_growth
= 0` falls back to `long_term_growth = 1/50`. -/
theorem C2_terminal_growth_resolution_witness :
    terminal_growth_of (DCFParams.mk (1/10) (1/50) 10 (some (3/100))) = 3/100
    ∧ terminal_growth_of (DCFParams.mk (1/10) (1/50) 10 (some 0)) = 1/50 :=
  ⟨(C2_terminal_growth_resolution _).1 (3/100) rfl (by norm_num),
   (C2_terminal_growth_resolution _).2 (Or.inr rfl)⟩

/-- Counterexample to C2 as stated: with `terminal_growth` present and
equal to `0.0`, `long_term_growth = 1/20` and `discount_rate = 1/25`, the
claim's resolution gives `0`, which is below the discount rate, so the
DCF would proceed and return a known total; the code resolves to
`long_term_growth = 1/20 ≥ 1/25` instead and returns `(none, none)`.
The code's effective rate demonstrably differs from the claim's. -/
theorem C2_counterexample :
    (DCFParams.mk (1/25) (1/20) 10 (some 0)).terminal_growth = some 0
    ∧ terminal_growth_as_specified (DCFParams.mk (1/25) (1/20) 10 (some 0)) = 0
    ∧ terminal_growth_of (DCFParams.mk (1/25) (1/20) 10 (some 0)) = 1/20
    ∧ calculate_dcf_value (Quote.mk "T" none none none)
        (Fundamentals.mk "T" none none none none none (some 100) none none none none)
        (DCFParams.mk (1/25) (1/20) 10 (some 0)) = (none, none) := by
  refine ⟨rfl, by norm_num [terminal_growth_as_specified], by norm_num [terminal_growth_of, pyOr], ?_⟩
  norm_num [calculate_dcf_value, terminal_growth_of, pyOr, pyTruthy]

/-- C3 (corrected): `calculate_margin_of_safety` returns unknown exactly
when either input is unknown, or `current_price = 0` (Python truthiness
treats the known price `0.0` as missing), or
`intrinsic_value_per_share ≤ 0`; otherwise (known `current_price ≠ 0`,
known `intrinsic_value_per_share > 0`) it returns
`(intrinsic_value_per_share - current_price) / intrinsic_value_per_share`. -/
theorem C3_margin_of_safety (cp iv : Option ℚ) :
    (calculate_margin_of_safety cp iv = none ↔
      cp = none ∨ cp = some 0 ∨ iv = none ∨ iv.getD 0 ≤ 0)
    ∧ (∀ c v : ℚ, cp = some c → iv = some v → c ≠ 0 → 0 < v →
        calculate_margin_of_safety cp iv = some ((v - c) / v)) := by
  constructor
  · cases cp with
    | none => simp [calculate_margin_of_safety, pyTruthy]
    | some c =>
      cases iv with
      | none => simp [calculate_margin_of_safety, pyTruthy]
      | some v =>
        by_cases hc : c = 0
        · simp [calculate_margin_of_safety, pyTruthy, hc]
        · by_cases hv : v ≤ 0
          · have hv0 : ¬ (0 : ℚ) < v := not_lt.mpr hv
            simp [calculate_margin_of_safety, pyTruthy, hc, hv]
          · have hv0 : v ≠ 0 := fun h => hv (le_of_eq h)
            simp [calculate_margin_of_safety, pyTruthy, hc, hv, hv0]
  · intro c v hcp hiv hc hv
    subst hcp; subst hiv
    simp [calculate_margin_of_safety, pyTruthy, hc, not_le.mpr hv, hv.ne.symm]

/-- Witness for C3 at concrete inputs: price 80 against intrinsic value
100 gives a margin of safety of exactly `(100 - 80) / 100 = 1/5`. -/
theorem C3_margin_of_safety_witness :
    calculate_margin_of_safety (some 80) (some 100) = some ((100 - 80) / 100) :=
  (C3_margin_of_safety (some 80) (some 100)).2 80 100 rfl rfl
    (by norm_num) (by norm_num)

/-- Counterexample to C3 as stated: for the known price `0.0` and a known
positive intrinsic value `100`, the claim requires
`(100 - 0) / 100 = 1`, but the code returns `none` (Python truthiness
rejects the known `0.0` price). -/
theorem C3_counterexample :
    calculate_margin_of_safety (some 0) (some 100) = none
    ∧ calculate_margin_of_safety (some 0) (some 100) ≠ some ((100 - 0) / 100) := by
  constructor
  · simp [calculate_margin_of_safety, pyTruthy]
  · simp [calculate_margin_of_safety, pyTruthy]

/-- C4 (corrected): with `price > 0`, `shares_outstanding > 0` and
`free_cash_flow` present and nonzero, `calculate_fcf_yield` returns
`free_cash_flow / (price * shares_outstanding)` (the market cap is
positive, so the `market_cap ≤ 0` guard cannot fire); it returns unknown
whenever any required input is unknown; a present `free_cash_flow = 0.0`
is treated as missing by Python truthiness, so the fcf-nonzero hypothesis
cannot be dropped. -/
theorem C4_fcf_yield (q : Quote) (f : Fundamentals) :
    (∀ p s c : ℚ, q.price = some p → 0 < p → q.shares_outstanding = some s →
        0 < s → f.free_cash_flow = some c → c ≠ 0 →
        calculate_fcf_yield q f = some (c / (p * s)))
    ∧ (q.price = none ∨ q.shares_outstanding = none ∨ f.free_cash_flow = none →
        calculate_fcf_yield q f = none) := by
  constructor
  · intro p s c hp hpp hs hsp hc hcn
    have hps : ¬ (p * s ≤ 0) := not_le.mpr (mul_pos hpp hsp)
    simp [calculate_fcf_yield, pyTruthy, hp, hs, hc, hpp.ne.symm, hsp.ne.symm, hcn, hps]
  · rintro (h | h | h) <;> simp [calculate_fcf_yield, pyTruthy, h]

/-- Witness for C4 at the spec's own example: price 100, one million
shares outstanding, free cash flow ten million — the yield is exactly
`10000000 / (100 * 1000000) = 1/10`. -/
theorem C4_fcf_yield_witness :
    calculate_fcf_yield (Quote.mk "T" (some 100) none (some 1000000))
      (Fundamentals.mk "T" none none none none none (some 10000000) none none none none)
      = some ((10000000 : ℚ) / (100 * 1000000))
    ∧ ((10000000 : ℚ) / (100 * 1000000)) = 1/10 :=
  ⟨(C4_fcf_yield _ _).1 100 1000000 10000000 rfl (by norm_num) rfl (by norm_num)
      rfl (by norm_num),
   by norm_num⟩

/-- Counterexample to C4 as stated: with `price = 1 > 0`,
`shares_outstanding = 1 > 0` and `free_cash_flow` present and equal to
`0.0`, the claim requires the known yield `0 / (1 * 1) = 0`; the code
returns `none` (truthiness gates out the known zero). -/
theorem C4_counterexample :
    calculate_fcf_yield (Quote.mk "T" (some 1) none (some 1))
      (Fundamentals.mk "T" none none none none none (some 0) none none none none) = none
    ∧ calculate_fcf_yield (Quote.mk "T" (some 1) none (some 1))
        (Fundamentals.mk "T" none none none none none (some 0) none none none none)
      ≠ some ((0 : ℚ) / (1 * 1)) := by
  constructor
  · simp [calculate_fcf_yield, pyTruthy]
  · simp [calculate_fcf_yield, pyTruthy]

/-- C9 (confirmed): `get_value_score_interpretation` is the bucket map
with inclusive lower bounds: at least 80 gives "Excellent Value",
60 to below 80 gives "Good Value", 40 to below 60 gives "Fair Value",
20 to below 40 gives "Poor Value", and below 20 gives
"Very Poor Value". -/
theorem C9_interpretation_buckets (score : ℚ) :
    (80 ≤ score → get_value_score_interpretation score = "Excellent Value")
    ∧ (60 ≤ score ∧ score < 80 → get_value_score_interpretation score = "Good Value")
    ∧ (40 ≤ score ∧ score < 60 → get_value_score_interpretation score = "Fair Value")
    ∧ (20 ≤ score ∧ score < 40 → get_value_score_interpretation score = "Poor Value")
    ∧ (score < 20 → get_value_score_interpretation score = "Very Poor Value") := by
  refine ⟨fun h => ?_, fun h => ?_, fun h => ?_, fun h => ?_, fun h => ?_⟩ <;>
    unfold get_value_score_interpretation <;>
    split_ifs <;>
    first
      | rfl
      | (exfalso
         first
           | linarith [h.1, h.2]
           | linarith)

/-- Witness for C9 at one concrete score per bucket. -/
theorem C9_interpretation_buckets_witness :
    get_value_score_interpretation 85 = "Excellent Value"
    ∧ get_value_score_interpretation 70 = "Good Value"
    ∧ get_value_score_interpretation 40 = "Fair Value"
    ∧ get_value_score_interpretation 20 = "Poor Value"
    ∧ get_value_score_interpretation 19 = "Very Poor Value" :=
  ⟨(C9_interpretation_buckets 85).1 (by norm_num),
   (C9_interpretation_buckets 70).2.1 ⟨by norm_num, by norm_num⟩,
   (C9_interpretation_buckets 40).2.2.1 ⟨by norm_num, by norm_num⟩,
   (C9_interpretation_buckets 20).2.2.2.1 ⟨by norm_num, by norm_num⟩,
   (C9_interpretation_buckets 19).2.2.2.2 (by norm_num)⟩

/-- C10 (confirmed): the code conflates the known value `0.0` with
"unknown" in its guards: a present `free_cash_flow = 0.0` makes
`calculate_dcf_value` return `(none, none)` and `calculate_fcf_yield`
return `none` for every quote and parameter set, and a known
`current_price = 0.0` makes `calculate_margin_of_safety` return `none`
for every intrinsic value, including known positive ones. -/
theorem C10_zero_is_conflated_with_unknown :
    (∀ (q : Quote) (f : Fundamentals) (p : DCFParams), f.free_cash_flow = some 0 →
        calculate_dcf_value q f p = (none, none))
    ∧ (∀ (q : Quote) (f : Fundamentals), f.free_cash_flow = some 0 →
        calculate_fcf_yield q f = none)
    ∧ (∀ iv : Option ℚ, calculate_margin_of_safety (some 0) iv = none) := by
  refine ⟨fun q f p h => ?_, fun q f h => ?_, fun iv => ?_⟩
  · simp [calculate_dcf_value, pyTruthy, h]
  · simp [calculate_fcf_yield, pyTruthy, h]
  · simp [calculate_margin_of_safety, pyTruthy]

/-- Witness for C10 at concrete inputs with `free_cash_flow = 0` and
`current_price = 0` against a known positive intrinsic value. -/
theorem C10_zero_is_conflated_with_unknown_witness :
    calculate_dcf_value (Quote.mk "T" (some 10) none (some 5))
      (Fundamentals.mk "T" none none none none none (some 0) none none none none)
      (DCFParams.mk (1/10) (1/50) 10 none) = (none, none)
    ∧ calculate_fcf_yield (Quote.mk "T" (some 10) none (some 5))
        (Fundamentals.mk "T" none none none none none (some 0) none none none none) = none
    ∧ calculate_margin_of_safety (some 0) (some 100) = none :=
  ⟨C10_zero_is_conflated_with_unknown.1 _ _ _ rfl,
   C10_zero_is_conflated_with_unknown.2.1 _ _ rfl,
   C10_zero_is_conflated_with_unknown.2.2 (some 100)⟩

/-- Helper: when both gates of `calculate_dcf_value` pass, the result is
the known total together with the per-share conditional on
`shares_outstanding`. -/
theorem dcf_known_total (q : Quote) (f : Fundamentals) (p : DCFParams)
    (h1 : pyTruthy f.free_cash_flow = true)
    (h2 : ¬ p.discount_rate ≤ terminal_growth_of p) :
    calculate_dcf_value q f p =
      ((match q.shares_outstanding with
        | none => none
        | some s => if s ≠ 0 ∧ 0 < s then
            some ((_calculate_present_value_cash_flows (f.free_cash_flow.getD 0)
              p.long_term_growth p.discount_rate p.years
              + _calculate_terminal_value (f.free_cash_flow.getD 0) p.long_term_growth
                (terminal_growth_of p) p.discount_rate p.years) / s) else none),
       some (_calculate_present_value_cash_flows (f.free_cash_flow.getD 0)
              p.long_term_growth p.discount_rate p.years
              + _calculate_terminal_value (f.free_cash_flow.getD 0) p.long_term_growth
                (terminal_growth_of p) p.discount_rate p.years)) := by
  simp [calculate_dcf_value, h1, h2]

/-- C6 (confirmed): whenever `calculate_dcf_value` returns both outputs
known, the per-share value equals the total divided by
`shares_outstanding` exactly; and given the total is known, the per-share
output is known if and only if `shares_outstanding` is known and
positive. -/
theorem C6_per_share_consistency (q : Quote) (f : Fundamentals) (p : DCFParams) :
    (∀ vps vt : ℚ, (calculate_dcf_value q f p).1 = some vps →
        (calculate_dcf_value q f p).2 = some vt →
        ∃ s : ℚ, q.shares_outstanding = some s ∧ 0 < s ∧ vps = vt / s)
    ∧ ((calculate_dcf_value q f p).2.isSome →
        ((calculate_dcf_value q f p).1.isSome ↔
          ∃ s : ℚ, q.shares_outstanding = some s ∧ 0 < s)) := by
  by_cases h1 : pyTruthy f.free_cash_flow
  · by_cases h2 : p.discount_rate ≤ terminal_growth_of p
    · have h : calculate_dcf_value q f p = (none, none) := by
        simp [calculate_dcf_value, h1, h2]
      rw [h]
      exact ⟨fun vps vt hv => by simp at hv, fun hs => by simp at hs⟩
    · rw [dcf_known_total q f p h1 h2]
      cases hso : q.shares_outstanding with
      | none =>
        refine ⟨fun vps vt hv => by simp at hv, fun _ => ?_⟩
        simp
      | some s =>
        by_cases hsp : s ≠ 0 ∧ 0 < s
        · simp only [if_pos hsp]
          refine ⟨fun vps vt hv hvt => ?_, fun _ => ?_⟩
          · refine ⟨s, rfl, hsp.2, ?_⟩
            have hv' : vps = _ := (Option.some.injEq _ _).mp hv.symm
            have hvt' : vt = _ := (Option.some.injEq _ _).mp hvt.symm
            rw [hv', hvt']
          · simp only [Option.isSome_some, true_iff]
            exact ⟨s, rfl, hsp.2⟩
        · simp only [if_neg hsp]
          refine ⟨fun vps vt hv => by simp at hv, fun _ => ?_⟩
          simp only [Option.isSome_none, Bool.false_eq_true, false_iff]
          rintro ⟨s', hs', hsp'⟩
          have : s = s' := by injection hs'
          exact hsp ⟨by rw [this]; exact hsp'.ne.symm, by rw [this]; exact hsp'⟩
  · have h : calculate_dcf_value q f p = (none, none) := by
      simp [calculate_dcf_value, h1]
    rw [h]
    exact ⟨fun vps vt hv => by simp at hv, fun hs => by simp at hs⟩

/-- Witness for C6 at a concrete input: two shares outstanding, FCF 100,
discount rate 1/10, zero growth, one year: the total is 1000 and the
per-share value is exactly 1000 / 2 = 500. -/
theorem C6_per_share_consistency_witness :
    ∃ s : ℚ, (Quote.mk "T" none none (some 2)).shares_outstanding = some s
      ∧ 0 < s ∧ (500 : ℚ) = 1000 / s :=
  (C6_per_share_consistency (Quote.mk "T" none none (some 2))
      (Fundamentals.mk "T" none none none none none (some 100) none none none none)
      (DCFParams.mk (1/10) 0 1 none)).1 500 1000
    (by norm_num [calculate_dcf_value, terminal_growth_of, pyOr, pyTruthy,
      _calculate_present_value_cash_flows, _calculate_terminal_value, Finset.sum_range_succ])
    (by norm_num [calculate_dcf_value, terminal_growth_of, pyOr, pyTruthy,
      _calculate_present_value_cash_flows, _calculate_terminal_value, Finset.sum_range_succ])

/-- Helper: looking up key `k` after a dict insert of `(k, v)` finds
`(k, v)`, in the overwrite case (key already present). -/
theorem find?_map_overwrite (r : Registry) (k : String) (v : DataSource)
    (h : r.any (fun p => p.1 == k) = true) :
    List.find? (fun p => p.1 == k)
      (r.map (fun p => if p.1 == k then (k, v) else p)) = some (k, v) := by
  induction r with
  | nil => simp at h
  | cons a as ih =>
    by_cases hk : (a.1 == k) = true
    · rw [List.map_cons, if_pos hk]
      exact List.find?_cons_of_pos _ (by simp)
    · have hk' : (a.1 == k) = false := by simpa using hk
      have h' : as.any (fun p => p.1 == k) = true := by
        simp only [List.any_cons, hk', Bool.false_or] at h
        exact h
      rw [List.map_cons, if_neg hk, List.find?_cons_of_neg _ (by simp [hk'])]
      exact ih h'

/-- Helper: looking up key `k` after a dict insert of `(k, v)` finds
`(k, v)`, in the append case (key not yet present). -/
theorem find?_append_self (r : Registry) (k : String) (v : DataSource)
    (h : r.any (fun p => p.1 == k) = false) :
    List.find? (fun p => p.1 == k) (r ++ [(k, v)]) = some (k, v) := by
  induction r with
  | nil => exact List.find?_cons_of_pos _ (by simp)
  | cons a as ih =>
    have hk : (a.1 == k) = false := by
      by_contra hc
      simp only [List.any_cons, Bool.or_eq_false_iff] at h
      simp_all
    have h' : as.any (fun p => p.1 == k) = false := by
      simp only [List.any_cons, Bool.or_eq_false_iff] at h
      exact h.2
    rw [List.cons_append, List.find?_cons_of_neg _ (by simp [hk])]
    exact ih h'

/-- Helper: a dict insert of `(k, v)` always leaves `v` as the binding
found for `k`. -/
theorem find?_dictInsert_self (r : Registry) (k : String) (v : DataSource) :
    List.find? (fun p => p.1 == k) (dictInsert r k v) = some (k, v) := by
  unfold dictInsert
  by_cases h : r.any (fun p => p.1 == k) = true
  · rw [if_pos h]
    exact find?_map_overwrite r k v h
  · rw [if_neg h]
    exact find?_append_self r k v (Bool.eq_false_iff.mpr h)

/-- C8 (confirmed): after registering two sources under the same name,
lookup of that name returns the later one; on a registry with
duplicate-free keys (the dict invariant), `list_sources` returns the
registered names as a sorted, duplicate-free sequence; and lookup of a
name that was never registered fails with the distinct
"Unknown data source" error rather than returning a null source. -/
theorem C8_registry (r : Registry) (s1 s2 : DataSource) (n : String) :
    (s1.name = s2.name →
      get_source (register_source (register_source r s1) s2) s2.name = Except.ok s2)
    ∧ ((List.map Prod.fst r).Nodup →
        List.Sorted (fun a b => a ≤ b) (list_sources r)
        ∧ (list_sources r).Nodup
        ∧ (list_sources r).Perm (List.map Prod.fst r))
    ∧ (n ∉ List.map Prod.fst r →
        get_source r n = Except.error ("Unknown data source: " ++ n)) := by
  refine ⟨fun hname => ?_, fun hnd => ?_, fun hn => ?_⟩
  · unfold get_source register_source
    rw [find?_dictInsert_self]
  · have hperm : (list_sources r).Perm (List.map Prod.fst r) :=
      List.perm_insertionSort _ _
    exact ⟨List.sorted_insertionSort _ _, (hperm.nodup_iff).mpr hnd, hperm⟩
  · unfold get_source
    have : List.find? (fun p => p.1 == n) r = none := by
      rw [List.find?_eq_none]
      intro p hp
      simp only [beq_iff_eq]
      intro hc
      exact hn (List.mem_map.mpr ⟨p, hp, hc⟩)
    rw [this]

/-- Witness for C8 on concrete registries: re-registering under "alpha"
resolves to the later source; listing a two-entry registry is sorted and
duplicate-free; looking up "gamma" fails with the named error. -/
theorem C8_registry_witness :
    get_source (register_source (register_source [] srcDemoA) srcDemoB) "alpha"
      = Except.ok srcDemoB
    ∧ (List.Sorted (fun a b => a ≤ b) (list_sources [("beta", srcDemoA), ("alpha", srcDemoB)])
        ∧ (list_sources [("beta", srcDemoA), ("alpha", srcDemoB)]).Nodup
        ∧ (list_sources [("beta", srcDemoA), ("alpha", srcDemoB)]).Perm
            (List.map Prod.fst [("beta", srcDemoA), ("alpha", srcDemoB)]))
    ∧ get_source [("beta", srcDemoA), ("alpha", srcDemoB)] "gamma"
        = Except.error ("Unknown data source: " ++ "gamma") :=
  ⟨(C8_registry [] srcDemoA srcDemoB "x").1 rfl,
   (C8_registry [("beta", srcDemoA), ("alpha", srcDemoB)] srcDemoA srcDemoB "x").2.1
     (by simp),
   (C8_registry [("beta", srcDemoA), ("alpha", srcDemoB)] srcDemoA srcDemoB "gamma").2.2
     (by simp)⟩

/-- Helper: with a nonnegative initial cash flow and positive growth and
discount factors, the summed present value of projected cash flows does
not increase when the discount rate increases. -/
theorem pv_anti (c g d1 d2 : ℚ) (n : ℕ) (hc : 0 ≤ c) (hg : 0 < 1 + g)
    (h1 : 0 < 1 + d1) (h12 : d1 ≤ d2) :
    _calculate_present_value_cash_flows c g d2 n
      ≤ _calculate_present_value_cash_flows c g d1 n := by
  unfold _calculate_present_value_cash_flows
  apply Finset.sum_le_sum
  intro i _
  have h2 : (0:ℚ) < 1 + d2 := by linarith
  gcongr

/-- Helper: with a positive initial cash flow, positive growth factors,
and valid discount rates above the terminal growth, the discounted
terminal value strictly decreases when the discount rate increases. -/
theorem tv_anti (c g e d1 d2 : ℚ) (n : ℕ) (hc : 0 < c) (hg : 0 < 1 + g)
    (he : 0 < 1 + e) (hv1 : e < d1) (h12 : d1 < d2) :
    _calculate_terminal_value c g e d2 n < _calculate_terminal_value c g e d1 n := by
  unfold _calculate_terminal_value
  have h1 : (0:ℚ) < 1 + d1 := by linarith
  have h2 : (0:ℚ) < 1 + d2 := by linarith
  rw [div_div, div_div]
  have hN : (0:ℚ) < c * (1 + g) ^ n * (1 + e) := by positivity
  have hD1 : (0:ℚ) < (d1 - e) * (1 + d1) ^ n :=
    mul_pos (by linarith) (pow_pos h1 _)
  have hDlt : (d1 - e) * (1 + d1) ^ n < (d2 - e) * (1 + d2) ^ n := by
    apply mul_lt_mul (by linarith) (pow_le_pow_left₀ h1.le (by linarith) n)
      (pow_pos h1 n) (by linarith)
  exact div_lt_div_of_pos_left hN hD1 hDlt

/-- C5 (corrected): for a fixed quote and fundamentals with
`free_cash_flow` known and positive, fixed growth rates with positive
growth factors (`1 + long_term_growth > 0` and `1 +` effective terminal
growth `> 0`) and fixed years: for any two discount rates `d1 < d2` both
strictly above the effective terminal growth rate (the validity
constraint), the known `intrinsic_value_total` at `d2` is strictly less
than the one at `d1`. -/
theorem C5_discount_rate_monotonicity (q : Quote) (f : Fundamentals)
    (c g : ℚ) (tg : Option ℚ) (n : ℕ) (d1 d2 : ℚ)
    (hfcf : f.free_cash_flow = some c) (hc : 0 < c)
    (hg : 0 < 1 + g) (he : 0 < 1 + pyOr tg g)
    (hv1 : pyOr tg g < d1) (h12 : d1 < d2) :
    ∃ t1 t2 : ℚ,
      (calculate_dcf_value q f (DCFParams.mk d1 g n tg)).2 = some t1
      ∧ (calculate_dcf_value q f (DCFParams.mk d2 g n tg)).2 = some t2
      ∧ t2 < t1 := by
  have htruthy : pyTruthy f.free_cash_flow = true := by
    rw [hfcf]
    simpa [pyTruthy] using hc.ne.symm
  have hgate1 : ¬ (DCFParams.mk d1 g n tg).discount_rate
      ≤ terminal_growth_of (DCFParams.mk d1 g n tg) :=
    not_le.mpr hv1
  have hgate2 : ¬ (DCFParams.mk d2 g n tg).discount_rate
      ≤ terminal_growth_of (DCFParams.mk d2 g n tg) :=
    not_le.mpr (lt_trans hv1 h12)
  have e1 := dcf_known_total q f (DCFParams.mk d1 g n tg) htruthy hgate1
  have e2 := dcf_known_total q f (DCFParams.mk d2 g n tg) htruthy hgate2
  refine ⟨_, _, by rw [e1], by rw [e2], ?_⟩
  simp only [hfcf, Option.getD_some]
  show _calculate_present_value_cash_flows c g d2 n
      + _calculate_terminal_value c g (pyOr tg g) d2 n
    < _calculate_present_value_cash_flows c g d1 n
      + _calculate_terminal_value c g (pyOr tg g) d1 n
  have hpv := pv_anti c g d1 d2 n hc.le hg (by linarith) h12.le
  have htv := tv_anti c g (pyOr tg g) d1 d2 n hc hg he hv1 h12
  linarith

/-- Counterexample to C5 as stated: with a known *negative* free cash
flow of `-100`, terminal growth `1/100` valid for both discount rates
`1/2 < 1`, the totals are `-10000/49` and `-10000/99`, and the one at the
larger discount rate is *greater*, not smaller. -/
theorem C5_counterexample :
    (Fundamentals.mk "T" none none none none none (some (-100)) none none none
        none).free_cash_flow = some (-100)
    ∧ terminal_growth_as_specified (DCFParams.mk (1/2) 0 1 (some (1/100))) = 1/100
    ∧ terminal_growth_of (DCFParams.mk (1/2) 0 1 (some (1/100))) = 1/100
    ∧ (1/100 : ℚ) < 1/2 ∧ (1/2 : ℚ) < 1
    ∧ (calculate_dcf_value (Quote.mk "T" none none none)
        (Fundamentals.mk "T" none none none none none (some (-100)) none none none none)
        (DCFParams.mk (1/2) 0 1 (some (1/100)))).2 = some (-10000/49)
    ∧ (calculate_dcf_value (Quote.mk "T" none none none)
        (Fundamentals.mk "T" none none none none none (some (-100)) none none none none)
        (DCFParams.mk 1 0 1 (some (1/100)))).2 = some (-10000/99)
    ∧ ¬ ((-10000/99 : ℚ) < -10000/49) := by
  refine ⟨rfl, by norm_num [terminal_growth_as_specified],
    by norm_num [terminal_growth_of, pyOr], by norm_num, by norm_num, ?_, ?_, by norm_num⟩ <;>
    norm_num [calculate_dcf_value, terminal_growth_of, pyOr, pyTruthy,
      _calculate_present_value_cash_flows, _calculate_terminal_value, Finset.sum_range_succ]

/-- Witness for C5 at a concrete input: FCF 100, growth 1/20, two years,
discount rates 1/10 < 3/20, both above the effective terminal growth
1/20. -/
theorem C5_discount_rate_monotonicity_witness :
    ∃ t1 t2 : ℚ,
      (calculate_dcf_value (Quote.mk "W" none none none)
        (Fundamentals.mk "W" none none none none none (some 100) none none none none)
        (DCFParams.mk (1/10) (1/20) 2 none)).2 = some t1
      ∧ (calculate_dcf_value (Quote.mk "W" none none none)
          (Fundamentals.mk "W" none none none none none (some 100) none none none none)
          (DCFParams.mk (3/20) (1/20) 2 none)).2 = some t2
      ∧ t2 < t1 :=
  C5_discount_rate_monotonicity _ _ 100 (1/20) none 2 (1/10) (3/20) rfl
    (by norm_num) (by norm_num) (by norm_num [pyOr]) (by norm_num [pyOr]) (by norm_num)

/-- Helper: each clamped signal score `min(100, max(0, x))` lies in
`[0, 100]`. -/
theorem clamp_bounds (x : ℚ) : 0 ≤ min 100 (max 0 x) ∧ min 100 (max 0 x) ≤ 100 :=
  ⟨le_min (by norm_num) (le_max_left 0 x), min_le_left _ _⟩

/-- Helper: the truthiness-based availability test of the P/E and P/B
signals coincides with "known and positive". -/
theorem truthy_pos_iff (x : Option ℚ) :
    (pyTruthy x ∧ 0 < x.getD 0) ↔ ∃ v, x = some v ∧ 0 < v := by
  cases x with
  | none => simp [pyTruthy]
  | some v =>
    simp only [pyTruthy, Option.getD_some, bne_iff_ne, ne_eq, Option.some.injEq]
    constructor
    · rintro ⟨_, h⟩
      exact ⟨v, rfl, h⟩
    · rintro ⟨w, rfl, h⟩
      exact ⟨ne_of_gt h, h⟩

/-- Helper: rounding a value of `[0, 100]` to two decimal places stays
in `[0, 100]`. -/
theorem pyRound2_bounds (x : ℚ) (h0 : 0 ≤ x) (h1 : x ≤ 100) :
    0 ≤ pyRound2 x ∧ pyRound2 x ≤ 100 := by
  unfold pyRound2
  constructor
  · apply div_nonneg _ (by norm_num)
    have h : (0 : ℤ) ≤ round (x * 100) := by
      rw [round_eq]
      apply Int.floor_nonneg.mpr
      linarith
    exact_mod_cast h
  · rw [div_le_iff₀ (by norm_num : (0:ℚ) < 100)]
    have h : round (x * 100) ≤ (10000 : ℤ) := by
      rw [round_eq]
      have hlt : (⌊x * 100 + 1 / 2⌋ : ℤ) < 10001 := by
        rw [Int.floor_lt]
        push_cast
        linarith
      omega
    calc ((round (x * 100) : ℤ) : ℚ) ≤ ((10000 : ℤ) : ℚ) := by exact_mod_cast h
      _ = 100 * 100 := by norm_num

/-- Helper: a weighted sum of scores in `[0, 100]`, with nonnegative
weights normalized by a positive constant, is nonnegative and at most
`100 * (sum of weights) / W`. -/
theorem zip_weighted_sum_bounds (ss ws : List ℚ) (W : ℚ) (hW : 0 < W)
    (hs : ∀ x ∈ ss, 0 ≤ x ∧ x ≤ 100) (hw : ∀ w ∈ ws, 0 ≤ w)
    (hlen : ss.length = ws.length) :
    0 ≤ ((ss.zip (ws.map (fun w => w / W))).map (fun p => p.1 * p.2)).sum
    ∧ ((ss.zip (ws.map (fun w => w / W))).map (fun p => p.1 * p.2)).sum
        ≤ 100 * ws.sum / W := by
  induction ss generalizing ws with
  | nil =>
    have hwsum : 0 ≤ ws.sum := List.sum_nonneg hw
    simp only [List.zip_nil_left, List.map_nil, List.sum_nil]
    exact ⟨le_refl 0, by positivity⟩
  | cons s ss ih =>
    cases ws with
    | nil => simp at hlen
    | cons w ws' =>
      have hs_head := hs s (List.mem_cons_self s ss)
      have hw_head := hw w (List.mem_cons_self w ws')
      have ihh := ih ws' (fun x hx => hs x (List.mem_cons_of_mem _ hx))
        (fun x hx => hw x (List.mem_cons_of_mem _ hx)) (by simpa using hlen)
      simp only [List.map_cons, List.zip_cons_cons, List.sum_cons]
      have hwW : 0 ≤ w / W := div_nonneg hw_head hW.le
      constructor
      · have hterm : 0 ≤ s * (w / W) := mul_nonneg hs_head.1 hwW
        linarith [ihh.1]
      · have hh : s * (w / W) ≤ 100 * (w / W) :=
          mul_le_mul_of_nonneg_right hs_head.2 hwW
        have hsplit : 100 * (w + ws'.sum) / W = 100 * (w / W) + 100 * ws'.sum / W := by
          ring
        rw [hsplit]
        linarith [ihh.2]

/-- Helper: every entry of the `scores` list is a clamped value in
`[0, 100]`. -/
theorem scores_of_mem_bounds (q : Quote) (f : Fundamentals) :
    ∀ x ∈ scores_of q f, 0 ≤ x ∧ x ≤ 100 := by
  intro x hx
  simp only [scores_of, List.mem_append] at hx
  rcases hx with ((hx | hx) | hx) | hx
  · split at hx
    · rw [List.mem_singleton] at hx
      rw [hx]; exact clamp_bounds _
    · simp at hx
  · split at hx
    · rw [List.mem_singleton] at hx
      rw [hx]; exact clamp_bounds _
    · simp at hx
  · rcases hfy : _calculate_fcf_yield_for_scoring q f with _ | y <;> rw [hfy] at hx
    · simp at hx
    · rw [List.mem_singleton] at hx
      rw [hx]; exact clamp_bounds _
  · rcases hroe : f.roe with _ | r <;> rw [hroe] at hx
    · simp at hx
    · rw [List.mem_singleton] at hx
      rw [hx]; exact clamp_bounds _

/-- Helper: every entry of the `weights` list is one of the configured
weights, all of which are at least `1/5`. -/
theorem weights_of_mem_lb (q : Quote) (f : Fundamentals) :
    ∀ w ∈ weights_of q f, 1/5 ≤ w := by
  intro w hw
  simp only [weights_of, List.mem_append] at hw
  rcases hw with ((hw | hw) | hw) | hw
  · split at hw
    · rw [List.mem_singleton] at hw
      rw [hw]; norm_num [settings]
    · simp at hw
  · split at hw
    · rw [List.mem_singleton] at hw
      rw [hw]; norm_num [settings]
    · simp at hw
  · rcases hfy : _calculate_fcf_yield_for_scoring q f with _ | y <;> rw [hfy] at hw
    · simp at hw
    · rw [List.mem_singleton] at hw
      rw [hw]; norm_num [settings]
  · rcases hroe : f.roe with _ | r <;> rw [hroe] at hw
    · simp at hw
    · rw [List.mem_singleton] at hw
      rw [hw]; norm_num [settings]

/-- Helper: the `scores` and `weights` lists always have the same
length (each conditional block appends to both or to neither). -/
theorem scores_weights_length (q : Quote) (f : Fundamentals) :
    (scores_of q f).length = (weights_of q f).length := by
  simp only [scores_of, weights_of, List.length_append]
  rcases hfy : _calculate_fcf_yield_for_scoring q f with _ | y <;>
    rcases hroe : f.roe with _ | r <;>
    split <;> split <;> simp

/-- Helper: the `scores` list is empty exactly when none of the four
signals is available. -/
theorem scores_of_eq_nil_iff (q : Quote) (f : Fundamentals) :
    scores_of q f = [] ↔
      (¬ ∃ pe : ℚ, f.trailing_pe = some pe ∧ 0 < pe)
      ∧ (¬ ∃ pb : ℚ, f.price_to_book = some pb ∧ 0 < pb)
      ∧ _calculate_fcf_yield_for_scoring q f = none
      ∧ f.roe = none := by
  rw [← truthy_pos_iff, ← truthy_pos_iff]
  simp only [scores_of, List.append_eq_nil]
  rcases hfy : _calculate_fcf_yield_for_scoring q f with _ | y <;>
    rcases hroe : f.roe with _ | r <;>
    split <;> split <;>
    simp_all

/-- Helper: the `weights` list is empty exactly when the `scores` list
is. -/
theorem weights_of_eq_nil_iff_scores (q : Quote) (f : Fundamentals) :
    weights_of q f = [] ↔ scores_of q f = [] := by
  rw [← List.length_eq_zero, ← List.length_eq_zero, scores_weights_length]

/-- C7 (confirmed): whenever `calculate_value_score` returns a known
value, that value lies in `[0, 100]`; and the result is unknown if and
only if none of the four signals (P/E known and positive, P/B known and
positive, FCF yield resolving to a known value, ROE known) was
available. -/
theorem C7_value_score (q : Quote) (f : Fundamentals) :
    (∀ v : ℚ, calculate_value_score q f = some v → 0 ≤ v ∧ v ≤ 100)
    ∧ (calculate_value_score q f = none ↔
        (¬ ∃ pe : ℚ, f.trailing_pe = some pe ∧ 0 < pe)
        ∧ (¬ ∃ pb : ℚ, f.price_to_book = some pb ∧ 0 < pb)
        ∧ _calculate_fcf_yield_for_scoring q f = none
        ∧ f.roe = none) := by
  constructor
  · intro v hv
    simp only [calculate_value_score] at hv
    split_ifs at hv with hnil hW
    have hveq : v = pyRound2 ((((scores_of q f).zip ((weights_of q f).map
        (fun w => w / (weights_of q f).sum))).map (fun p => p.1 * p.2)).sum) :=
      ((Option.some.injEq _ _).mp hv).symm
    have hw0 : ∀ w ∈ weights_of q f, 0 ≤ w :=
      fun w hw => le_trans (by norm_num) (weights_of_mem_lb q f w hw)
    have hWnn : 0 ≤ (weights_of q f).sum := List.sum_nonneg hw0
    have hWpos : 0 < (weights_of q f).sum := lt_of_le_of_ne hWnn (Ne.symm hW)
    have hzip := zip_weighted_sum_bounds (scores_of q f) (weights_of q f) _ hWpos
      (scores_of_mem_bounds q f) hw0 (scores_weights_length q f)
    have hupper : 100 * (weights_of q f).sum / (weights_of q f).sum = 100 := by
      field_simp
    rw [hveq]
    exact pyRound2_bounds _ hzip.1 (le_trans hzip.2 (le_of_eq hupper))
  · constructor
    · intro hnone
      simp only [calculate_value_score] at hnone
      split_ifs at hnone with hnil hW
      · have hs_nil : scores_of q f = [] := by
          rcases hnil with h | h
          · exact h
          · exact (weights_of_eq_nil_iff_scores q f).mp h
        exact (scores_of_eq_nil_iff q f).mp hs_nil
      · exfalso
        push_neg at hnil
        obtain ⟨hs_ne, hw_ne⟩ := hnil
        cases hwl : weights_of q f with
        | nil => exact hw_ne hwl
        | cons w ws =>
          have hb : 1/5 ≤ w :=
            weights_of_mem_lb q f w (by rw [hwl]; exact List.mem_cons_self _ _)
          have hrest : 0 ≤ ws.sum :=
            List.sum_nonneg (fun x hx => le_trans (by norm_num)
              (weights_of_mem_lb q f x (by rw [hwl]; exact List.mem_cons_of_mem _ hx)))
          rw [hwl] at hW
          simp only [List.sum_cons] at hW
          linarith
    · intro hrhs
      have hs_nil : scores_of q f = [] := (scores_of_eq_nil_iff q f).mpr hrhs
      simp only [calculate_value_score]
      rw [if_pos (Or.inl hs_nil)]

/-- Witness for C7 at concrete inputs: the test fixture (P/E 15, P/B 2,
ROE 0.15, FCF yield 0.10) scores exactly 66, which the theorem bounds in
`[0, 100]`; and a fundamentals record with no signals at all yields an
unknown score. -/
theorem C7_value_score_witness :
    (0 ≤ (66:ℚ) ∧ (66:ℚ) ≤ 100)
    ∧ calculate_value_score (Quote.mk "W" none none none)
        (Fundamentals.mk "W" none none none none none none none none none none) = none :=
  ⟨(C7_value_score (Quote.mk "T" (some 100) none (some 1000000))
      (Fundamentals.mk "T" (some 15) (some 2) (some (15/100)) (some (1/10))
        (some (1/2)) (some 10000000) none none none none)).1 66
    (by
      norm_num [calculate_value_score, scores_of, weights_of,
        _calculate_fcf_yield_for_scoring, pyTruthy, settings, pyRound2, round_eq]
      exact fun h => absurd h (by simp)),
   (C7_value_score _ _).2.mpr ⟨by simp, by simp, rfl, rfl⟩⟩
